import Mathlib

/-!
Verification of the vote-counting mechanism of the Slackit Q&A platform.

The embedding covers:
* the `public.votes` ledger table with its UNIQUE(user_id, target_id,
  target_type) constraint and the `votes` counter columns of
  `public.questions` and `public.answers` (database/schema.sql);
* the trigger function `public.update_vote_count` fired AFTER INSERT OR
  UPDATE OR DELETE ON public.votes FOR EACH ROW (database/schema.sql,
  lines 132-179);
* the `POST /api/vote` route handler (src/app/api/vote/route.ts);
* the client-side vote-count computation in `VotingButtons.handleVote`
  (src/components/ui/VotingButtons.tsx).

Identifiers (UUIDs in the schema) are modelled as naturals; timestamps are
irrelevant to every claim and omitted.
-/

namespace Slackit

/-- `target_type` column: `CHECK (target_type IN ('question', 'answer'))`. -/
inductive TargetType
  | question
  | answer
deriving DecidableEq, Repr

/-- `vote_type` column: `CHECK (vote_type IN ('upvote', 'downvote'))`. -/
inductive VoteType
  | upvote
  | downvote
deriving DecidableEq, Repr

/-- One row of `public.votes`: id (primary key), user_id, target_id,
target_type, vote_type.  `created_at` is omitted. -/
structure VoteRow where
  id : Nat
  user_id : Nat
  target_id : Nat
  target_type : TargetType
  vote_type : VoteType
deriving DecidableEq, Repr

/-- Database state: `questions` and `answers` as lists of
(id, votes-counter) pairs — only the `votes INTEGER` column matters to the
claims — and the `votes` ledger table. -/
structure DB where
  questions : List (Nat × Int)
  answers : List (Nat × Int)
  votes : List VoteRow
deriving DecidableEq, Repr

/-- `CASE WHEN vote_type = 'upvote' THEN 1 ELSE -1 END` (schema.sql). -/
def delta : VoteType → Int
  | .upvote => 1
  | .downvote => -1

/-- `UPDATE tbl SET votes = f votes WHERE id = tid`: every row whose id
matches is rewritten, all others are untouched. -/
def updateRows (tbl : List (Nat × Int)) (tid : Nat) (f : Int → Int) :
    List (Nat × Int) :=
  tbl.map (fun r => if r.1 == tid then (r.1, f r.2) else r)

/-- The row-level operation the trigger is invoked for: `TG_OP` together
with the OLD and/or NEW rows. -/
inductive TrigOp
  | ins (new : VoteRow)
  | upd (old new : VoteRow)
  | del (old : VoteRow)

/-- Trigger function `public.update_vote_count` (schema.sql lines 132-174).
INSERT: add `delta NEW.vote_type` to the row `NEW.target_id` of the table
named by `NEW.target_type`.  UPDATE: the table is chosen by
`OLD.target_type`, the row by `NEW.target_id`, and the adjustment is
`delta NEW.vote_type - delta OLD.vote_type`.  DELETE: subtract
`delta OLD.vote_type` from row `OLD.target_id` of `OLD.target_type`'s
table. -/
def update_vote_count (db : DB) : TrigOp → DB
  | .ins new =>
    match new.target_type with
    | .question =>
      { db with questions :=
          updateRows db.questions new.target_id (· + delta new.vote_type) }
    | .answer =>
      { db with answers :=
          updateRows db.answers new.target_id (· + delta new.vote_type) }
  | .upd old new =>
    match old.target_type with
    | .question =>
      { db with questions :=
          (updateRows db.questions new.target_id
            (· + delta new.vote_type - delta old.vote_type)) }
    | .answer =>
      { db with answers :=
          (updateRows db.answers new.target_id
            (· + delta new.vote_type - delta old.vote_type)) }
  | .del old =>
    match old.target_type with
    | .question =>
      { db with questions :=
          updateRows db.questions old.target_id (· - delta old.vote_type) }
    | .answer =>
      { db with answers :=
          updateRows db.answers old.target_id (· - delta old.vote_type) }

/-- A single SQL mutation of the `votes` table, addressed the way the
application addresses rows: insert a full row, update the row with a given
id to a new row value, delete the row with a given id. -/
inductive Mut
  | ins (v : VoteRow)
  | upd (vid : Nat) (new : VoteRow)
  | del (vid : Nat)

/-- Point lookup of a ledger row by primary key. -/
def findVote (db : DB) (vid : Nat) : Option VoteRow :=
  db.votes.find? (fun w => w.id == vid)

/-- Apply one ledger mutation, firing `on_vote_change` (AFTER ... FOR EACH
ROW EXECUTE FUNCTION update_vote_count) on the affected row.  `none` models
a rejected statement: a primary-key or UNIQUE(user_id, target_id,
target_type) violation, or an UPDATE/DELETE whose id matches no row (then no
row is affected and no trigger fires). -/
def applyMut (db : DB) : Mut → Option DB
  | .ins v =>
    if db.votes.any (fun w => w.id == v.id) then none
    else if db.votes.any (fun w =>
        w.user_id == v.user_id && w.target_id == v.target_id &&
        w.target_type == v.target_type) then none
    else some (update_vote_count { db with votes := v :: db.votes } (.ins v))
  | .upd vid new =>
    match findVote db vid with
    | none => none
    | some old =>
      let rest := db.votes.filter (fun w => w.id != vid)
      if rest.any (fun w => w.id == new.id) then none
      else if rest.any (fun w =>
          w.user_id == new.user_id && w.target_id == new.target_id &&
          w.target_type == new.target_type) then none
      else some (update_vote_count
        { db with votes :=
            db.votes.map (fun w => if w.id == vid then new else w) }
        (.upd old new))
  | .del vid =>
    match findVote db vid with
    | none => none
    | some old =>
      some (update_vote_count
        { db with votes := db.votes.filter (fun w => w.id != vid) }
        (.del old))

/-- Apply a sequence of ledger mutations; the whole sequence is rejected as
soon as one statement is. -/
def applyMuts (db : DB) : List Mut → Option DB
  | [] => some db
  | m :: ms =>
    match applyMut db m with
    | none => none
    | some db2 => applyMuts db2 ms

/-- Number of `upvote` ledger rows referencing a given target. -/
def upCount (votes : List VoteRow) (tid : Nat) (tk : TargetType) : Nat :=
  (votes.filter (fun w =>
    w.target_id == tid && w.target_type == tk &&
    w.vote_type == VoteType.upvote)).length

/-- Number of `downvote` ledger rows referencing a given target. -/
def downCount (votes : List VoteRow) (tid : Nat) (tk : TargetType) : Nat :=
  (votes.filter (fun w =>
    w.target_id == tid && w.target_type == tk &&
    w.vote_type == VoteType.downvote)).length

/-- Score consistency: every question row and every answer row stores
exactly (# upvotes referencing it) − (# downvotes referencing it). -/
def ScoresMatch (db : DB) : Prop :=
  (∀ p ∈ db.questions,
    p.2 = (upCount db.votes p.1 .question : Int) -
      (downCount db.votes p.1 .question : Int)) ∧
  (∀ p ∈ db.answers,
    p.2 = (upCount db.votes p.1 .answer : Int) -
      (downCount db.votes p.1 .answer : Int))

instance : DecidablePred ScoresMatch := fun db => by
  unfold ScoresMatch; infer_instance

/-- Initial state of the claims: empty vote ledger, every Votable's score
zero. -/
def InitDB (db : DB) : Prop :=
  db.votes = [] ∧ (∀ p ∈ db.questions, p.2 = 0) ∧ (∀ p ∈ db.answers, p.2 = 0)

/-- A mutation changes only the `vote_type` column when it is an update
whose new row agrees with the stored row on id, user_id, target_id and
target_type (inserts and deletes are unrestricted). -/
def dirOnlyMut (db : DB) : Mut → Bool
  | .ins _ => true
  | .del _ => true
  | .upd vid new =>
    match findVote db vid with
    | none => true
    | some old =>
      old.id == new.id && old.user_id == new.user_id &&
      old.target_id == new.target_id && old.target_type == new.target_type

/-- Every update in the sequence, evaluated in the state it runs in,
changes only the `vote_type` column. -/
def dirOnlySeq (db : DB) : List Mut → Bool
  | [] => true
  | m :: ms =>
    dirOnlyMut db m &&
      (match applyMut db m with
       | none => true
       | some db2 => dirOnlySeq db2 ms)

/-- Request body of `POST /api/vote` as destructured by the route:
`const { target_id, target_type, vote_type } = await request.json()`.
`none` models a missing (falsy) field; the two enumerations arrive as raw
strings and are validated by the route. -/
structure VoteRequest where
  target_id : Option Nat
  target_type : Option String
  vote_type : Option String
deriving DecidableEq, Repr

/-- Responses the route produces: `NextResponse.json({ success: true })` on
success, `NextResponse.json({ error: msg }, { status })` on failure. -/
inductive ApiResponse
  | ok (success : Bool)
  | err (status : Nat) (msg : String)
deriving DecidableEq, Repr

/-- `supabaseAdmin.rpc('update_vote_count', { p_target_id, p_target_type })`
(route.ts lines 111-114).  schema.sql declares `public.update_vote_count()`
as a zero-argument function `RETURNS TRIGGER`; no function
`update_vote_count(p_target_id, p_target_type)` exists, and a trigger
function cannot be called directly, so this remote call always yields an
error and never changes the database. -/
def rpcUpdateVoteCount (db : DB) (tid : Nat) (tt : TargetType) :
    Except String DB :=
  Except.error "function update_vote_count(p_target_id, p_target_type) does not exist"

/-- Route epilogue after the ledger mutation (route.ts lines 110-121): call
the `update_vote_count` RPC; on error only log it — "Don't return error
since the vote was processed, just log it" — and answer
`{ success: true }` either way. -/
def afterMutation (db : DB) (tid : Nat) (tt : TargetType) :
    DB × ApiResponse :=
  match rpcUpdateVoteCount db tid tt with
  | .error _ => (db, .ok true)
  | .ok db2 => (db2, .ok true)

/-- Core of the authenticated vote path (route.ts lines 49-108): look up the
caller's existing vote on the target; if one exists with the same
`vote_type` delete it, with a different `vote_type` update it, and if none
exists insert a fresh row.  A failing statement is answered with a 500 and
no state change. -/
def voteCore (db : DB) (uid tid : Nat) (tt : TargetType) (vt : VoteType)
    (fresh : Nat) : DB × ApiResponse :=
  match db.votes.find? (fun w =>
      w.user_id == uid && w.target_id == tid && w.target_type == tt) with
  | some e =>
    if e.vote_type == vt then
      match applyMut db (.del e.id) with
      | none => (db, .err 500 "vote deletion failed")
      | some db2 => afterMutation db2 tid tt
    else
      match applyMut db (.upd e.id { e with vote_type := vt }) with
      | none => (db, .err 500 "vote update failed")
      | some db2 => afterMutation db2 tid tt
  | none =>
    match applyMut db (.ins ⟨fresh, uid, tid, tt, vt⟩) with
    | none => (db, .err 500 "vote insertion failed")
    | some db2 => afterMutation db2 tid tt

/-- The `TargetType` a validated `target_type` string denotes. -/
def parseTargetType (s : String) : TargetType :=
  if s == "question" then .question else .answer

/-- The `VoteType` a validated `vote_type` string denotes. -/
def parseVoteType (s : String) : VoteType :=
  if s == "upvote" then .upvote else .downvote

/-- `POST /api/vote` (route.ts): reject missing fields (400), an invalid
`target_type` (400), an invalid `vote_type` (400) and an unauthenticated
caller (401) — in that order — then run the vote path.  `auth` is the user
resolved from the session cookie (`supabase.auth.getUser()`), `fresh` the
primary key the store would generate for a newly inserted vote row. -/
def POST (db : DB) (auth : Option Nat) (req : VoteRequest) (fresh : Nat) :
    DB × ApiResponse :=
  match req.target_id, req.target_type, req.vote_type with
  | some tid, some tts, some vts =>
    if !(tts == "question" || tts == "answer") then
      (db, .err 400 "Invalid target type")
    else if !(vts == "upvote" || vts == "downvote") then
      (db, .err 400 "Invalid vote type")
    else
      match auth with
      | none => (db, .err 401 "Authentication required")
      | some uid =>
        voteCore db uid tid (parseTargetType tts) (parseVoteType vts) fresh
  | _, _, _ => (db, .err 400 "Missing required fields")

/-- The `votes` counter of a given target, when the target exists. -/
def scoreOf (db : DB) (tid : Nat) : TargetType → Option Int
  | .question => (db.questions.find? (fun p => p.1 == tid)).map (·.2)
  | .answer => (db.answers.find? (fun p => p.1 == tid)).map (·.2)

/-- The caller's effective vote on a target: the `vote_type` of their ledger
row if one exists (`getUserVote` in lib/api.ts), `none` otherwise. -/
def effectiveVote (db : DB) (uid tid : Nat) (tt : TargetType) :
    Option VoteType :=
  (db.votes.find? (fun w =>
    w.user_id == uid && w.target_id == tid && w.target_type == tt)).map
    (·.vote_type)

/-- Local state of the `VotingButtons` component that the claims are about:
the `userVote` object (only its `vote_type` matters) and `voteCount`. -/
structure ClientState where
  userVote : Option VoteType
  voteCount : Int
deriving DecidableEq, Repr

/-- `userVote.vote_type === 'upvote' ? 1 : -1` (VotingButtons.tsx). -/
def clientVoteValue : VoteType → Int
  | .upvote => 1
  | .downvote => -1

/-- `handleVote` of `VotingButtons` (VotingButtons.tsx lines 59-120; the
same computation appears in `CompactVotingButtons`, lines 257-299): when the
caller is unauthenticated or the request failed, the state is unchanged;
on success the new count is `voteCount - oldVoteValue + newVoteValue` if a
`userVote` is recorded and `voteCount ± 1` otherwise, and `userVote` is set
to a vote with the submitted `vote_type`. -/
def handleVote (isAuthenticated : Bool) (st : ClientState) (voteType : VoteType)
    (success : Bool) : ClientState :=
  if !isAuthenticated then st
  else if success then
    { userVote := some voteType
      voteCount :=
        match st.userVote with
        | some old =>
          st.voteCount - clientVoteValue old + clientVoteValue voteType
        | none => st.voteCount + clientVoteValue voteType }
  else st

/-- Signed contribution of one ledger row to a given target's score:
`delta` of its `vote_type` if the row references the target, 0 otherwise. -/
def contrib (tid : Nat) (tk : TargetType) (w : VoteRow) : Int :=
  if w.target_id == tid && w.target_type == tk then delta w.vote_type else 0

/-- Net score of a target as derived from the ledger: the sum of the
contributions of all rows. -/
def net (votes : List VoteRow) (tid : Nat) (tk : TargetType) : Int :=
  (votes.map (contrib tid tk)).sum

/-- Every stored counter equals the net ledger-derived score. -/
def NetMatch (db : DB) : Prop :=
  (∀ p ∈ db.questions, p.2 = net db.votes p.1 .question) ∧
  (∀ p ∈ db.answers, p.2 = net db.votes p.1 .answer)

/-- The primary keys of the ledger rows are pairwise distinct. -/
def IdsNodup (db : DB) : Prop :=
  (db.votes.map (fun w => w.id)).Nodup

/-- The `UNIQUE(user_id, target_id, target_type)` constraint of
`public.votes`: no two ledger rows share that triple. -/
def UniqueTriples (votes : List VoteRow) : Prop :=
  votes.Pairwise (fun a b =>
    ¬(a.user_id = b.user_id ∧ a.target_id = b.target_id ∧
      a.target_type = b.target_type))

instance : DecidablePred UniqueTriples := fun votes => by
  unfold UniqueTriples; infer_instance

instance : DecidablePred InitDB := fun db => by
  unfold InitDB; infer_instance

instance : DecidablePred IdsNodup := fun db => by
  unfold IdsNodup; infer_instance

/-! ### Helper lemmas about table updates and ledger sums -/

theorem find?_fst_updateRows (tbl : List (Nat × Int)) (tid : Nat)
    (f : Int → Int) :
    (updateRows tbl tid f).find? (fun p => p.1 == tid) =
      (tbl.find? (fun p => p.1 == tid)).map (fun p => (p.1, f p.2)) := by
  induction tbl with
  | nil => rfl
  | cons p rest ih =>
    unfold updateRows at ih ⊢
    cases hb : (p.1 == tid) with
    | true =>
      rw [List.map_cons, if_pos hb, List.find?_cons, List.find?_cons]
      simp [hb]
    | false =>
      rw [List.map_cons, if_neg (by simp [hb]), List.find?_cons,
        List.find?_cons]
      simp only [hb]
      exact ih

theorem updateRows_eq_self (tbl : List (Nat × Int)) (tid : Nat) (f : Int → Int)
    (h : ∀ p ∈ tbl, p.1 ≠ tid) : updateRows tbl tid f = tbl := by
  induction tbl with
  | nil => rfl
  | cons p rest ih =>
    unfold updateRows at ih ⊢
    rw [List.map_cons, if_neg (by simp [h p (by simp)])]
    rw [ih (fun q hq => h q (by simp [hq]))]

theorem filter_ne_eq_self (votes : List VoteRow) (vid : Nat)
    (h : ∀ w ∈ votes, w.id ≠ vid) :
    votes.filter (fun w => w.id != vid) = votes := by
  induction votes with
  | nil => rfl
  | cons w rest ih =>
    rw [List.filter_cons, if_pos (by simp [h w (by simp)])]
    rw [ih (fun u hu => h u (by simp [hu]))]

theorem map_replace_eq_self (votes : List VoteRow) (vid : Nat) (new : VoteRow)
    (h : ∀ w ∈ votes, w.id ≠ vid) :
    votes.map (fun w => if w.id == vid then new else w) = votes := by
  induction votes with
  | nil => rfl
  | cons w rest ih =>
    rw [List.map_cons, if_neg (by simp [h w (by simp)])]
    rw [ih (fun u hu => h u (by simp [hu]))]

theorem find?_id_of_mem {votes : List VoteRow} {e : VoteRow}
    (hmem : e ∈ votes) (hnodup : (votes.map (fun w => w.id)).Nodup) :
    votes.find? (fun w => w.id == e.id) = some e := by
  induction votes with
  | nil => cases hmem
  | cons w rest ih =>
    rw [List.map_cons, List.nodup_cons] at hnodup
    rcases List.mem_cons.mp hmem with rfl | hmem'
    · rw [List.find?_cons]
      simp
    · have hne : w.id ≠ e.id := by
        intro hEq
        exact hnodup.1 (hEq ▸ List.mem_map_of_mem _ hmem')
      rw [List.find?_cons]
      simp only [beq_eq_false_iff_ne.mpr hne]
      exact ih hmem' hnodup.2

theorem contrib_eq_delta {tid : Nat} {tk : TargetType} {w : VoteRow}
    (h1 : w.target_id = tid) (h2 : w.target_type = tk) :
    contrib tid tk w = delta w.vote_type := by
  simp [contrib, h1, h2]

theorem contrib_eq_zero_of_ne_target {tid : Nat} {tk : TargetType}
    {w : VoteRow} (h : w.target_id ≠ tid) : contrib tid tk w = 0 := by
  simp [contrib, h]

theorem contrib_eq_zero_of_ne_kind {tid : Nat} {tk : TargetType} {w : VoteRow}
    (h : w.target_type ≠ tk) : contrib tid tk w = 0 := by
  simp [contrib, h]

theorem net_cons (v : VoteRow) (votes : List VoteRow) (tid : Nat)
    (tk : TargetType) :
    net (v :: votes) tid tk = contrib tid tk v + net votes tid tk := by
  simp [net]

theorem net_filter_del {votes : List VoteRow} {vid : Nat} {old : VoteRow}
    (hfind : votes.find? (fun w => w.id == vid) = some old)
    (hnodup : (votes.map (fun w => w.id)).Nodup) (tid : Nat)
    (tk : TargetType) :
    net (votes.filter (fun w => w.id != vid)) tid tk =
      net votes tid tk - contrib tid tk old := by
  induction votes with
  | nil => simp at hfind
  | cons w rest ih =>
    rw [List.map_cons, List.nodup_cons] at hnodup
    rw [List.find?_cons] at hfind
    cases hb : (w.id == vid) with
    | true =>
      simp only [hb] at hfind
      injection hfind with hold
      have hrest : ∀ u ∈ rest, u.id ≠ vid := by
        intro u hu hEq
        exact hnodup.1 (by
          have hwv : w.id = vid := by simpa using hb
          rw [hwv, ← hEq]
          exact List.mem_map_of_mem _ hu)
      rw [List.filter_cons, if_neg (by simp [bne, hb]),
        filter_ne_eq_self rest vid hrest, net_cons, ← hold]
      ring
    | false =>
      simp only [hb] at hfind
      rw [List.filter_cons, if_pos (by simp [bne, hb]), net_cons, net_cons,
        ih hfind hnodup.2]
      ring

theorem net_map_replace {votes : List VoteRow} {vid : Nat} {old : VoteRow}
    (new : VoteRow) (hfind : votes.find? (fun w => w.id == vid) = some old)
    (hnodup : (votes.map (fun w => w.id)).Nodup) (tid : Nat)
    (tk : TargetType) :
    net (votes.map (fun w => if w.id == vid then new else w)) tid tk =
      net votes tid tk - contrib tid tk old + contrib tid tk new := by
  induction votes with
  | nil => simp at hfind
  | cons w rest ih =>
    rw [List.map_cons, List.nodup_cons] at hnodup
    rw [List.find?_cons] at hfind
    cases hb : (w.id == vid) with
    | true =>
      simp only [hb] at hfind
      injection hfind with hold
      have hrest : ∀ u ∈ rest, u.id ≠ vid := by
        intro u hu hEq
        exact hnodup.1 (by
          have hwv : w.id = vid := by simpa using hb
          rw [hwv, ← hEq]
          exact List.mem_map_of_mem _ hu)
      rw [List.map_cons, if_pos hb, map_replace_eq_self rest vid new hrest,
        net_cons, net_cons, ← hold]
      ring
    | false =>
      simp only [hb] at hfind
      rw [List.map_cons, if_neg (by simp [hb]), net_cons, net_cons,
        ih hfind hnodup.2]
      ring

theorem net_eq_counts (votes : List VoteRow) (tid : Nat) (tk : TargetType) :
    net votes tid tk =
      (upCount votes tid tk : Int) - (downCount votes tid tk : Int) := by
  induction votes with
  | nil => simp [net, upCount, downCount]
  | cons w rest ih =>
    rw [net_cons, ih]
    unfold upCount downCount contrib
    by_cases h1 : w.target_id = tid
    · by_cases h2 : w.target_type = tk
      · cases hv : w.vote_type <;>
          simp [List.filter_cons, h1, h2, hv, delta, upCount, downCount] <;>
          omega
      · simp [List.filter_cons, h1, h2, upCount, downCount]
    · simp [List.filter_cons, h1, upCount, downCount]


theorem votes_update_vote_count (db : DB) (op : TrigOp) :
    (update_vote_count db op).votes = db.votes := by
  cases op with
  | ins v => cases ht : v.target_type <;> simp [update_vote_count, ht]
  | upd old new => cases ht : old.target_type <;> simp [update_vote_count, ht]
  | del old => cases ht : old.target_type <;> simp [update_vote_count, ht]

theorem tableMatch_update {tbl : List (Nat × Int)} {votes votes2 : List VoteRow}
    {tk : TargetType} {tid : Nat} {d : Int} {f : Int → Int}
    (hf : ∀ x, f x = x + d)
    (h : ∀ p ∈ tbl, p.2 = net votes p.1 tk)
    (hnet : ∀ t, net votes2 t tk = net votes t tk + (if t = tid then d else 0)) :
    ∀ p ∈ updateRows tbl tid f, p.2 = net votes2 p.1 tk := by
  intro p' hp'
  unfold updateRows at hp'
  obtain ⟨p, hp, rfl⟩ := List.mem_map.mp hp'
  by_cases hb : p.1 = tid
  · simp [hb, hnet, hf, h p hp]
  · simp [hb, hnet, h p hp]

theorem tableMatch_untouched {tbl : List (Nat × Int)}
    {votes votes2 : List VoteRow} {tk : TargetType}
    (h : ∀ p ∈ tbl, p.2 = net votes p.1 tk)
    (hnet : ∀ t, net votes2 t tk = net votes t tk) :
    ∀ p ∈ tbl, p.2 = net votes2 p.1 tk := by
  intro p hp
  rw [hnet, h p hp]


theorem inv_preserved_ins {db db2 : DB} {v : VoteRow} (hnet : NetMatch db)
    (hnodup : IdsNodup db) (happly : applyMut db (.ins v) = some db2) :
    NetMatch db2 ∧ IdsNodup db2 := by
  simp only [applyMut] at happly
  cases hpk : db.votes.any (fun w => w.id == v.id) with
  | true => rw [hpk] at happly; simp at happly
  | false =>
  cases huq : db.votes.any (fun w =>
      w.user_id == v.user_id && w.target_id == v.target_id &&
      w.target_type == v.target_type) with
  | true => rw [hpk, huq] at happly; simp at happly
  | false =>
  rw [hpk, huq] at happly
  simp only [Bool.false_eq_true, if_false, Option.some.injEq] at happly
  subst happly
  constructor
  · -- NetMatch
    obtain ⟨hq, ha⟩ := hnet
    cases ht : v.target_type with
    | question =>
      constructor
      · simp only [update_vote_count, ht]
        refine tableMatch_update (d := delta v.vote_type) (fun x => rfl) hq ?_
        intro t
        rw [net_cons]
        by_cases hb : t = v.target_id
        · rw [contrib_eq_delta hb.symm ht, if_pos hb]; ring
        · rw [contrib_eq_zero_of_ne_target (fun hEq => hb hEq.symm), if_neg hb]
          ring
      · simp only [update_vote_count, ht]
        refine tableMatch_untouched ha ?_
        intro t
        rw [net_cons, contrib_eq_zero_of_ne_kind (by simp [ht])]
        ring
    | answer =>
      constructor
      · simp only [update_vote_count, ht]
        refine tableMatch_untouched hq ?_
        intro t
        rw [net_cons, contrib_eq_zero_of_ne_kind (by simp [ht])]
        ring
      · simp only [update_vote_count, ht]
        refine tableMatch_update (d := delta v.vote_type) (fun x => rfl) ha ?_
        intro t
        rw [net_cons]
        by_cases hb : t = v.target_id
        · rw [contrib_eq_delta hb.symm ht, if_pos hb]; ring
        · rw [contrib_eq_zero_of_ne_target (fun hEq => hb hEq.symm), if_neg hb]
          ring
  · -- IdsNodup
    unfold IdsNodup
    rw [votes_update_vote_count]
    simp only [List.map_cons, List.nodup_cons]
    refine ⟨?_, hnodup⟩
    intro hmem
    obtain ⟨w, hw, hwid⟩ := List.mem_map.mp hmem
    have : db.votes.any (fun u => u.id == v.id) = true :=
      List.any_eq_true.mpr ⟨w, hw, by simp [hwid]⟩
    rw [hpk] at this
    cases this


theorem inv_preserved_del {db db2 : DB} {vid : Nat} (hnet : NetMatch db)
    (hnodup : IdsNodup db) (happly : applyMut db (.del vid) = some db2) :
    NetMatch db2 ∧ IdsNodup db2 := by
  simp only [applyMut] at happly
  cases hfind : findVote db vid with
  | none => rw [hfind] at happly; cases happly
  | some old =>
  rw [hfind] at happly
  simp only [Option.some.injEq] at happly
  subst happly
  have hfind' : db.votes.find? (fun w => w.id == vid) = some old := hfind
  have hnodup' : (db.votes.map (fun w => w.id)).Nodup := hnodup
  constructor
  · obtain ⟨hq, ha⟩ := hnet
    cases ht : old.target_type with
    | question =>
      constructor
      · simp only [update_vote_count, ht]
        refine tableMatch_update (d := - delta old.vote_type)
          (fun x => sub_eq_add_neg x _) hq ?_
        intro t
        rw [net_filter_del hfind' hnodup']
        by_cases hb : t = old.target_id
        · rw [contrib_eq_delta hb.symm ht, if_pos hb]; ring
        · rw [contrib_eq_zero_of_ne_target (fun hEq => hb hEq.symm), if_neg hb]
          ring
      · simp only [update_vote_count, ht]
        refine tableMatch_untouched ha ?_
        intro t
        rw [net_filter_del hfind' hnodup',
          contrib_eq_zero_of_ne_kind (by simp [ht])]
        ring
    | answer =>
      constructor
      · simp only [update_vote_count, ht]
        refine tableMatch_untouched hq ?_
        intro t
        rw [net_filter_del hfind' hnodup',
          contrib_eq_zero_of_ne_kind (by simp [ht])]
        ring
      · simp only [update_vote_count, ht]
        refine tableMatch_update (d := - delta old.vote_type)
          (fun x => sub_eq_add_neg x _) ha ?_
        intro t
        rw [net_filter_del hfind' hnodup']
        by_cases hb : t = old.target_id
        · rw [contrib_eq_delta hb.symm ht, if_pos hb]; ring
        · rw [contrib_eq_zero_of_ne_target (fun hEq => hb hEq.symm), if_neg hb]
          ring
  · unfold IdsNodup
    rw [votes_update_vote_count]
    exact hnodup.sublist (List.Sublist.map _ (List.filter_sublist _))

theorem inv_preserved_upd {db db2 : DB} {vid : Nat} {new : VoteRow}
    (hnet : NetMatch db) (hnodup : IdsNodup db)
    (hdir : dirOnlyMut db (.upd vid new) = true)
    (happly : applyMut db (.upd vid new) = some db2) :
    NetMatch db2 ∧ IdsNodup db2 := by
  simp only [applyMut] at happly
  cases hfind : findVote db vid with
  | none => rw [hfind] at happly; cases happly
  | some old =>
  rw [hfind] at happly
  simp only [dirOnlyMut] at hdir
  rw [hfind] at hdir
  simp only [Bool.and_eq_true, beq_iff_eq] at hdir
  obtain ⟨⟨⟨hid, _⟩, htid⟩, htt⟩ := hdir
  have hoid : old.id = vid := by
    have := List.find?_some hfind
    simpa using this
  cases hc1 : ((db.votes.filter (fun w => w.id != vid)).any
      (fun w => w.id == new.id)) with
  | true => rw [hc1] at happly; simp at happly
  | false =>
  cases hc2 : ((db.votes.filter (fun w => w.id != vid)).any (fun w =>
      w.user_id == new.user_id && w.target_id == new.target_id &&
      w.target_type == new.target_type)) with
  | true => rw [hc1, hc2] at happly; simp at happly
  | false =>
  rw [hc1, hc2] at happly
  simp only [Bool.false_eq_true, if_false, Option.some.injEq] at happly
  subst happly
  have hfind' : db.votes.find? (fun w => w.id == vid) = some old := hfind
  have hnodup' : (db.votes.map (fun w => w.id)).Nodup := hnodup
  constructor
  · obtain ⟨hq, ha⟩ := hnet
    cases ht : old.target_type with
    | question =>
      constructor
      · simp only [update_vote_count, ht]
        refine tableMatch_update
          (d := delta new.vote_type - delta old.vote_type)
          (fun x => by ring) hq ?_
        intro t
        rw [net_map_replace new hfind' hnodup']
        by_cases hb : t = new.target_id
        · rw [contrib_eq_delta (htid.trans hb.symm) ht,
            contrib_eq_delta hb.symm (htt.symm.trans ht), if_pos hb]
          ring
        · rw [contrib_eq_zero_of_ne_target
              (fun hEq => hb (hEq.symm.trans htid)),
            contrib_eq_zero_of_ne_target (fun hEq => hb hEq.symm), if_neg hb]
          ring
      · simp only [update_vote_count, ht]
        refine tableMatch_untouched ha ?_
        intro t
        rw [net_map_replace new hfind' hnodup',
          contrib_eq_zero_of_ne_kind (by simp [ht]),
          contrib_eq_zero_of_ne_kind (by simp [← htt, ht])]
        ring
    | answer =>
      constructor
      · simp only [update_vote_count, ht]
        refine tableMatch_untouched hq ?_
        intro t
        rw [net_map_replace new hfind' hnodup',
          contrib_eq_zero_of_ne_kind (by simp [ht]),
          contrib_eq_zero_of_ne_kind (by simp [← htt, ht])]
        ring
      · simp only [update_vote_count, ht]
        refine tableMatch_update
          (d := delta new.vote_type - delta old.vote_type)
          (fun x => by ring) ha ?_
        intro t
        rw [net_map_replace new hfind' hnodup']
        by_cases hb : t = new.target_id
        · rw [contrib_eq_delta (htid.trans hb.symm) ht,
            contrib_eq_delta hb.symm (htt.symm.trans ht), if_pos hb]
          ring
        · rw [contrib_eq_zero_of_ne_target
              (fun hEq => hb (hEq.symm.trans htid)),
            contrib_eq_zero_of_ne_target (fun hEq => hb hEq.symm), if_neg hb]
          ring
  · unfold IdsNodup
    rw [votes_update_vote_count]
    rw [List.map_map]
    have hmapeq : db.votes.map ((fun w => w.id) ∘ fun w =>
        if w.id == vid then new else w) = db.votes.map (fun w => w.id) := by
      refine List.map_congr_left ?_
      intro w _
      simp only [Function.comp]
      by_cases hw : w.id = vid
      · rw [if_pos (by simp [hw]), ← hid, hoid, hw]
      · rw [if_neg (by simp [hw])]
    rw [hmapeq]
    exact hnodup

theorem inv_preserved {db db2 : DB} {m : Mut} (hnet : NetMatch db)
    (hnodup : IdsNodup db) (hdir : dirOnlyMut db m = true)
    (happly : applyMut db m = some db2) : NetMatch db2 ∧ IdsNodup db2 := by
  cases m with
  | ins v => exact inv_preserved_ins hnet hnodup happly
  | upd vid new => exact inv_preserved_upd hnet hnodup hdir happly
  | del vid => exact inv_preserved_del hnet hnodup happly

/-- Claim C1, amended: in every database state reachable from an initial
state (empty vote ledger, every Votable's score 0) by a sequence of
vote-row inserts, deletes, and updates that change only the `vote_type`
column — the only updates the application issues — each processed by the
`on_vote_change` trigger running `update_vote_count`, every question's and
every answer's stored score equals the number of upvote rows referencing it
minus the number of downvote rows referencing it.  The restriction on
updates is forced: an update that moves a vote to another target breaks the
invariant (see the counterexample). -/
theorem score_invariant_direction_only (db0 : DB) (ms : List Mut) (db : DB)
    (hinit : InitDB db0) (hdir : dirOnlySeq db0 ms = true)
    (happly : applyMuts db0 ms = some db) : ScoresMatch db := by
  have main : ∀ (l : List Mut) (dbA : DB), NetMatch dbA → IdsNodup dbA →
      dirOnlySeq dbA l = true → applyMuts dbA l = some db → NetMatch db := by
    intro l
    induction l with
    | nil =>
      intro dbA h1 _ _ happ
      simp only [applyMuts, Option.some.injEq] at happ
      exact happ ▸ h1
    | cons m rest ih =>
      intro dbA h1 h2 hd happ
      simp only [applyMuts] at happ
      cases ha : applyMut dbA m with
      | none => rw [ha] at happ; cases happ
      | some dbB =>
        rw [ha] at happ
        simp only [dirOnlySeq, ha, Bool.and_eq_true] at hd
        obtain ⟨hB1, hB2⟩ := inv_preserved h1 h2 hd.1 ha
        exact ih dbB hB1 hB2 hd.2 happ
  obtain ⟨hv0, hq0, ha0⟩ := hinit
  have h1 : NetMatch db0 := by
    constructor
    · intro p hp; rw [hq0 p hp, hv0]; rfl
    · intro p hp; rw [ha0 p hp, hv0]; rfl
  have h2 : IdsNodup db0 := by unfold IdsNodup; rw [hv0]; exact List.nodup_nil
  obtain ⟨hq, ha⟩ := main ms db0 h1 h2 hdir happly
  constructor
  · intro p hp; exact (hq p hp).trans (net_eq_counts _ _ _)
  · intro p hp; exact (ha p hp).trans (net_eq_counts _ _ _)

/-- Claim C1 counterexample: from the initial state with questions 1 and 2
at score 0, inserting user 1's upvote on question 1 and then updating that
vote row's `target_id` from 1 to 2 — two mutations both accepted and both
processed by `update_vote_count` — reaches a state where question 1 keeps
score 1 although no vote references it, refuting the claim for arbitrary
vote-row updates. -/
theorem score_invariant_counterexample :
    InitDB ⟨[(1, 0), (2, 0)], [], []⟩ ∧
    applyMuts ⟨[(1, 0), (2, 0)], [], []⟩
      [Mut.ins ⟨10, 1, 1, .question, .upvote⟩,
       Mut.upd 10 ⟨10, 1, 2, .question, .upvote⟩] =
      some ⟨[(1, 1), (2, 0)], [], [⟨10, 1, 2, .question, .upvote⟩]⟩ ∧
    ¬ ScoresMatch ⟨[(1, 1), (2, 0)], [], [⟨10, 1, 2, .question, .upvote⟩]⟩ := by
  refine ⟨?_, ?_, ?_⟩ <;> decide

/-- Witness for the amended claim C1 at a concrete run: one question at
score 0, one upvote inserted. -/
theorem score_invariant_direction_only_witness :
    (InitDB ⟨[(1, 0)], [], []⟩ ∧
      dirOnlySeq ⟨[(1, 0)], [], []⟩
        [Mut.ins ⟨10, 1, 1, .question, .upvote⟩] = true ∧
      applyMuts ⟨[(1, 0)], [], []⟩
        [Mut.ins ⟨10, 1, 1, .question, .upvote⟩] =
        some ⟨[(1, 1)], [], [⟨10, 1, 1, .question, .upvote⟩]⟩) ∧
    ScoresMatch ⟨[(1, 1)], [], [⟨10, 1, 1, .question, .upvote⟩]⟩ :=
  ⟨⟨by decide, by decide, by decide⟩,
    score_invariant_direction_only ⟨[(1, 0)], [], []⟩
      [Mut.ins ⟨10, 1, 1, .question, .upvote⟩]
      ⟨[(1, 1)], [], [⟨10, 1, 1, .question, .upvote⟩]⟩
      (by decide) (by decide) (by decide)⟩


/-- Claim C7: Counter Maintainer arithmetic of `update_vote_count` — on
insert of a vote the target's score changes by `delta` of the new direction
(+1 for an upvote, −1 for a downvote); on an update of a vote's direction
the score changes by `delta new − delta old`; on delete the score changes
by `−delta old`. -/
theorem counter_maintainer_deltas (db : DB) (v old : VoteRow)
    (nvt : VoteType) :
    scoreOf (update_vote_count db (.ins v)) v.target_id v.target_type =
      (scoreOf db v.target_id v.target_type).map (· + delta v.vote_type) ∧
    scoreOf (update_vote_count db (.upd old { old with vote_type := nvt }))
        old.target_id old.target_type =
      (scoreOf db old.target_id old.target_type).map
        (· + (delta nvt - delta old.vote_type)) ∧
    scoreOf (update_vote_count db (.del old)) old.target_id old.target_type =
      (scoreOf db old.target_id old.target_type).map
        (· - delta old.vote_type) := by
  refine ⟨?_, ?_, ?_⟩
  · cases ht : v.target_type
    all_goals simp [update_vote_count, ht, scoreOf, find?_fst_updateRows,
      Option.map_map]
    all_goals congr 1
  · cases ht : old.target_type
    all_goals simp [update_vote_count, ht, scoreOf, find?_fst_updateRows,
      Option.map_map]
    all_goals (congr 1; funext p; simp; ring)
  · cases ht : old.target_type
    all_goals simp [update_vote_count, ht, scoreOf, find?_fst_updateRows,
      Option.map_map]
    all_goals congr 1


theorem scoreOf_set_votes (db : DB) (vs : List VoteRow) (tid : Nat)
    (tk : TargetType) : scoreOf { db with votes := vs } tid tk =
      scoreOf db tid tk := by
  cases tk <;> rfl

theorem scoreOf_ins (db : DB) (v : VoteRow) :
    scoreOf (update_vote_count db (.ins v)) v.target_id v.target_type =
      (scoreOf db v.target_id v.target_type).map (· + delta v.vote_type) := by
  cases ht : v.target_type
  all_goals simp [update_vote_count, ht, scoreOf, find?_fst_updateRows,
    Option.map_map]
  all_goals congr 1

theorem scoreOf_upd (db : DB) (old : VoteRow) (nvt : VoteType) :
    scoreOf (update_vote_count db (.upd old { old with vote_type := nvt }))
        old.target_id old.target_type =
      (scoreOf db old.target_id old.target_type).map
        (· + (delta nvt - delta old.vote_type)) := by
  cases ht : old.target_type
  all_goals simp [update_vote_count, ht, scoreOf, find?_fst_updateRows,
    Option.map_map]
  all_goals (congr 1; funext p; simp; ring)

theorem scoreOf_del (db : DB) (old : VoteRow) :
    scoreOf (update_vote_count db (.del old)) old.target_id old.target_type =
      (scoreOf db old.target_id old.target_type).map
        (· - delta old.vote_type) := by
  cases ht : old.target_type
  all_goals simp [update_vote_count, ht, scoreOf, find?_fst_updateRows,
    Option.map_map]
  all_goals congr 1

theorem POST_valid (db : DB) (uid tid fresh : Nat) (tts vts : String)
    (htt : tts = "question" ∨ tts = "answer")
    (hvt : vts = "upvote" ∨ vts = "downvote") :
    POST db (some uid) ⟨some tid, some tts, some vts⟩ fresh =
      voteCore db uid tid (parseTargetType tts) (parseVoteType vts) fresh := by
  rcases htt with rfl | rfl <;> rcases hvt with rfl | rfl <;> simp [POST]

theorem voteCore_insert {db : DB} {uid tid : Nat} {tt : TargetType}
    {vt : VoteType} {fresh : Nat}
    (hnone : db.votes.find? (fun w =>
      w.user_id == uid && w.target_id == tid && w.target_type == tt) = none)
    (hfresh : ∀ w ∈ db.votes, w.id ≠ fresh) :
    voteCore db uid tid tt vt fresh =
      (update_vote_count
        { db with votes := ⟨fresh, uid, tid, tt, vt⟩ :: db.votes }
        (.ins ⟨fresh, uid, tid, tt, vt⟩), .ok true) := by
  unfold voteCore
  rw [hnone]
  have h1 : db.votes.any (fun w => w.id == fresh) = false := by
    rw [List.any_eq_false]
    intro w hw
    simpa using hfresh w hw
  have h2 : db.votes.any (fun w =>
      w.user_id == uid && w.target_id == tid && w.target_type == tt) =
      false := by
    rw [List.any_eq_false]
    intro w hw
    have := List.find?_eq_none.mp hnone w hw
    simpa using this
  simp [applyMut, h1, h2, afterMutation, rpcUpdateVoteCount]

theorem voteCore_delete {db : DB} {uid tid : Nat} {tt : TargetType}
    {vt : VoteType} {fresh : Nat} {e : VoteRow}
    (hsome : db.votes.find? (fun w =>
      w.user_id == uid && w.target_id == tid && w.target_type == tt) = some e)
    (hsame : e.vote_type = vt) (hnodup : IdsNodup db) :
    voteCore db uid tid tt vt fresh =
      (update_vote_count
        { db with votes := db.votes.filter (fun w => w.id != e.id) }
        (.del e), .ok true) := by
  unfold voteCore
  simp only [hsome]
  rw [if_pos (by simp [hsame])]
  have hmem : e ∈ db.votes := List.mem_of_find?_eq_some hsome
  have hfv : findVote db e.id = some e := find?_id_of_mem hmem hnodup
  simp [applyMut, hfv, afterMutation, rpcUpdateVoteCount]

theorem uniqueTriples_eq {votes : List VoteRow} (h : UniqueTriples votes)
    {a b : VoteRow} (ha : a ∈ votes) (hb : b ∈ votes)
    (h1 : a.user_id = b.user_id) (h2 : a.target_id = b.target_id)
    (h3 : a.target_type = b.target_type) : a = b := by
  by_contra hne
  have hsymm : Symmetric (fun x y : VoteRow =>
      ¬(x.user_id = y.user_id ∧ x.target_id = y.target_id ∧
        x.target_type = y.target_type)) := by
    intro x y hxy hEq
    exact hxy ⟨hEq.1.symm, hEq.2.1.symm, hEq.2.2.symm⟩
  exact (List.Pairwise.forall hsymm h) ha hb hne ⟨h1, h2, h3⟩

theorem voteCore_update {db : DB} {uid tid : Nat} {tt : TargetType}
    {vt : VoteType} {fresh : Nat} {e : VoteRow}
    (hsome : db.votes.find? (fun w =>
      w.user_id == uid && w.target_id == tid && w.target_type == tt) = some e)
    (hdiff : e.vote_type ≠ vt) (hnodup : IdsNodup db)
    (huniq : UniqueTriples db.votes) :
    voteCore db uid tid tt vt fresh =
      (update_vote_count
        { db with votes := db.votes.map (fun w =>
            if w.id == e.id then { e with vote_type := vt } else w) }
        (.upd e { e with vote_type := vt }), .ok true) := by
  unfold voteCore
  simp only [hsome]
  rw [if_neg (by simp [hdiff])]
  have hmem : e ∈ db.votes := List.mem_of_find?_eq_some hsome
  have hfv : findVote db e.id = some e := find?_id_of_mem hmem hnodup
  have hpred := List.find?_some hsome
  simp only [Bool.and_eq_true, beq_iff_eq] at hpred
  obtain ⟨⟨hu, hti⟩, hty⟩ := hpred
  have hc1 : ((db.votes.filter (fun w => w.id != e.id)).any
      (fun w => w.id == ({ e with vote_type := vt } : VoteRow).id)) =
      false := by
    rw [List.any_eq_false]
    intro w hw
    have := (List.mem_filter.mp hw).2
    simpa using this
  have hc2 : ((db.votes.filter (fun w => w.id != e.id)).any (fun w =>
      w.user_id == ({ e with vote_type := vt } : VoteRow).user_id &&
      w.target_id == ({ e with vote_type := vt } : VoteRow).target_id &&
      w.target_type == ({ e with vote_type := vt } : VoteRow).target_type)) =
      false := by
    rw [List.any_eq_false]
    intro w hw hcontra
    obtain ⟨hwmem, hwid⟩ := List.mem_filter.mp hw
    simp only [Bool.and_eq_true, beq_iff_eq] at hcontra
    obtain ⟨⟨hcu, hct⟩, hck⟩ := hcontra
    have hweq : w = e := uniqueTriples_eq huniq hwmem hmem hcu hct hck
    rw [hweq] at hwid
    simp at hwid
  simp [applyMut, hfv, hc1, hc2, afterMutation, rpcUpdateVoteCount]


theorem afterMutation_eq (dbX : DB) (t : Nat) (k : TargetType) :
    afterMutation dbX t k = (dbX, .ok true) := by
  simp [afterMutation, rpcUpdateVoteCount]

theorem POST_response_shape (db : DB) (auth : Option Nat) (req : VoteRequest)
    (fresh : Nat) :
    (POST db auth req fresh).2 = .ok true ∨
    ((POST db auth req fresh).1 = db ∧
      ∃ s m, (POST db auth req fresh).2 = .err s m) := by
  have hcore : ∀ (dbX : DB) (uid t : Nat) (k : TargetType) (v : VoteType),
      (voteCore dbX uid t k v fresh).2 = .ok true ∨
      ((voteCore dbX uid t k v fresh).1 = dbX ∧
        ∃ s m, (voteCore dbX uid t k v fresh).2 = .err s m) := by
    intro dbX uid t k v
    unfold voteCore
    cases hf : dbX.votes.find? (fun w =>
        w.user_id == uid && w.target_id == t && w.target_type == k) with
    | none =>
      simp only []
      cases ha : applyMut dbX (.ins ⟨fresh, uid, t, k, v⟩) with
      | none =>
        simp only []
        right
        refine ⟨?_, 500, "vote insertion failed", ?_⟩ <;> simp
      | some db2 =>
        simp only []
        left
        rw [afterMutation_eq]
    | some e =>
      simp only []
      by_cases hsame : (e.vote_type == v) = true
      · rw [if_pos hsame]
        cases ha : applyMut dbX (.del e.id) with
        | none =>
          simp only []
          right
          refine ⟨?_, 500, "vote deletion failed", ?_⟩ <;> simp
        | some db2 =>
          simp only []
          left
          rw [afterMutation_eq]
      · rw [if_neg hsame]
        cases ha : applyMut dbX (.upd e.id { e with vote_type := v }) with
        | none =>
          simp only []
          right
          refine ⟨?_, 500, "vote update failed", ?_⟩ <;> simp
        | some db2 =>
          simp only []
          left
          rw [afterMutation_eq]
  rcases req with ⟨otid, otts, ovts⟩
  cases otid with
  | none =>
    right
    refine ⟨?_, 400, "Missing required fields", ?_⟩ <;> simp [POST]
  | some tid =>
  cases otts with
  | none =>
    right
    refine ⟨?_, 400, "Missing required fields", ?_⟩ <;> simp [POST]
  | some tts =>
  cases ovts with
  | none =>
    right
    refine ⟨?_, 400, "Missing required fields", ?_⟩ <;> simp [POST]
  | some vts =>
  cases h1 : (tts == "question" || tts == "answer") with
  | false =>
    right
    refine ⟨?_, 400, "Invalid target type", ?_⟩ <;> simp [POST, h1]
  | true =>
  cases h2 : (vts == "upvote" || vts == "downvote") with
  | false =>
    right
    refine ⟨?_, 400, "Invalid vote type", ?_⟩ <;> simp [POST, h1, h2]
  | true =>
  cases auth with
  | none =>
    right
    refine ⟨?_, 401, "Authentication required", ?_⟩ <;> simp [POST, h1, h2]
  | some uid =>
    have hred : POST db (some uid) ⟨some tid, some tts, some vts⟩ fresh =
        voteCore db uid tid (parseTargetType tts) (parseVoteType vts)
          fresh := by
      simp [POST, h1, h2]
    rw [hred]
    exact hcore db uid tid (parseTargetType tts) (parseVoteType vts)


/-- Claim C3, amended: every `POST /api/vote` call either fails with an
error response and leaves the database unchanged (the ledger mutation and
the trigger's score update are one atomic unit, applied together or not at
all), or succeeds with `{ success: true }`.  However, the post-mutation
`update_vote_count` RPC error is logged and swallowed rather than surfaced
(route.ts lines 116-119; see the counterexample), so not every error in
the vote path reaches the caller as a failed response. -/
theorem vote_route_error_atomicity (db : DB) (auth : Option Nat)
    (req : VoteRequest) (fresh : Nat) :
    (POST db auth req fresh).2 = .ok true ∨
    ((POST db auth req fresh).1 = db ∧
      ∃ s m, (POST db auth req fresh).2 = .err s m) :=
  POST_response_shape db auth req fresh

/-- Claim C3 counterexample: a concrete successful vote in which the
`update_vote_count` RPC step yields an error, yet the route answers
`{ success: true }` — the error is swallowed, refuting "no error is
silently swallowed". -/
theorem vote_rpc_error_swallowed :
    rpcUpdateVoteCount
      (POST ⟨[(1, 0)], [], []⟩ (some 7)
        ⟨some 1, some "question", some "upvote"⟩ 4).1 1 .question =
      .error
        "function update_vote_count(p_target_id, p_target_type) does not exist" ∧
    (POST ⟨[(1, 0)], [], []⟩ (some 7)
      ⟨some 1, some "question", some "upvote"⟩ 4).2 = .ok true :=
  ⟨rfl, by decide⟩

/-- Claim C5, amended: every response of `POST /api/vote` is either the
constant success body `{ success: true }` or an error; the success body
carries neither the voter's new effective vote state nor the updated
score. -/
theorem success_response_only_flag (db : DB) (auth : Option Nat)
    (req : VoteRequest) (fresh : Nat) :
    (POST db auth req fresh).2 = .ok true ∨
    ∃ s m, (POST db auth req fresh).2 = .err s m := by
  rcases POST_response_shape db auth req fresh with h | ⟨_, h⟩
  · exact Or.inl h
  · exact Or.inr h

/-- Claim C5 counterexample: two successful submitVote calls whose
post-states differ in both the voter's effective vote (Up vs NoVote) and
the target's score (1 vs 4) produce identical responses, so the response
cannot convey the new effective state or the updated score. -/
theorem result_shape_counterexample :
    (POST ⟨[(1, 0)], [], []⟩ (some 7)
        ⟨some 1, some "question", some "upvote"⟩ 4).2 =
      (POST ⟨[(1, 5)], [], [⟨3, 7, 1, .question, .upvote⟩]⟩ (some 7)
        ⟨some 1, some "question", some "upvote"⟩ 4).2 ∧
    effectiveVote (POST ⟨[(1, 0)], [], []⟩ (some 7)
        ⟨some 1, some "question", some "upvote"⟩ 4).1 7 1 .question =
      some .upvote ∧
    effectiveVote (POST ⟨[(1, 5)], [], [⟨3, 7, 1, .question, .upvote⟩]⟩
        (some 7) ⟨some 1, some "question", some "upvote"⟩ 4).1 7 1 .question =
      none ∧
    scoreOf (POST ⟨[(1, 0)], [], []⟩ (some 7)
        ⟨some 1, some "question", some "upvote"⟩ 4).1 1 .question = some 1 ∧
    scoreOf (POST ⟨[(1, 5)], [], [⟨3, 7, 1, .question, .upvote⟩]⟩ (some 7)
        ⟨some 1, some "question", some "upvote"⟩ 4).1 1 .question =
      some 4 := by
  refine ⟨?_, ?_, ?_, ?_, ?_⟩ <;> decide

/-- Claim C6 counterexample: an unauthenticated submission with a missing
`target_id` fails with 400 "Missing required fields", not with the 401
Unauthenticated error — field validation runs before the authentication
check. -/
theorem unauth_validation_first :
    (POST ⟨[], [], []⟩ none ⟨none, some "question", some "upvote"⟩ 0).2 =
      .err 400 "Missing required fields" ∧
    (POST ⟨[], [], []⟩ none ⟨none, some "question", some "upvote"⟩ 0).2 ≠
      .err 401 "Authentication required" := by
  refine ⟨?_, ?_⟩ <;> decide

/-- Claim C6, amended: an unauthenticated vote submission never changes the
database (ledger or scores); if its three fields are present and valid it
fails with HTTP 401 "Authentication required", but when a field is missing
or invalid the 400 validation error is returned instead, because
validation precedes the authentication check. -/
theorem unauthenticated_rejection (db : DB) (req : VoteRequest)
    (fresh : Nat) :
    (POST db none req fresh).1 = db ∧
    (∀ tid tts vts, req = ⟨some tid, some tts, some vts⟩ →
      (tts = "question" ∨ tts = "answer") →
      (vts = "upvote" ∨ vts = "downvote") →
      (POST db none req fresh).2 = .err 401 "Authentication required") := by
  constructor
  · rcases req with ⟨otid, otts, ovts⟩
    cases otid with
    | none => simp [POST]
    | some tid =>
    cases otts with
    | none => simp [POST]
    | some tts =>
    cases ovts with
    | none => simp [POST]
    | some vts =>
    cases h1 : (tts == "question" || tts == "answer") with
    | false => simp [POST, h1]
    | true =>
    cases h2 : (vts == "upvote" || vts == "downvote") with
    | false => simp [POST, h1, h2]
    | true => simp [POST, h1, h2]
  · intro tid tts vts hreq htt hvt
    subst hreq
    rcases htt with rfl | rfl <;> rcases hvt with rfl | rfl <;> simp [POST]

/-- Witness for the amended claim C6 at a concrete valid request. -/
theorem unauthenticated_rejection_witness :
    (POST ⟨[(3, 2)], [], []⟩ none
        ⟨some 3, some "question", some "upvote"⟩ 0).1 = ⟨[(3, 2)], [], []⟩ ∧
    (POST ⟨[(3, 2)], [], []⟩ none
        ⟨some 3, some "question", some "upvote"⟩ 0).2 =
      .err 401 "Authentication required" :=
  ⟨(unauthenticated_rejection ⟨[(3, 2)], [], []⟩
      ⟨some 3, some "question", some "upvote"⟩ 0).1,
   (unauthenticated_rejection ⟨[(3, 2)], [], []⟩
      ⟨some 3, some "question", some "upvote"⟩ 0).2 3 "question" "upvote"
      rfl (Or.inl rfl) (Or.inl rfl)⟩

/-- Claim C4 counterexample: an authenticated vote on target 99, which
exists in neither the questions nor the answers table, succeeds with
`{ success: true }` and inserts a ledger row — no NotFound error is
produced and the ledger is mutated. -/
theorem notfound_counterexample :
    (POST ⟨[], [], []⟩ (some 7) ⟨some 99, some "question", some "upvote"⟩
        5).2 = .ok true ∧
    (POST ⟨[], [], []⟩ (some 7) ⟨some 99, some "question", some "upvote"⟩
        5).1.votes = [⟨5, 7, 99, .question, .upvote⟩] := by
  refine ⟨?_, ?_⟩ <;> decide


/-- Claim C4, amended: the route performs no existence check on the target.
A valid authenticated vote whose `target_id` matches no question and no
answer is processed like any other — the ledger row is inserted, updated,
or deleted and the call succeeds — and no stored score changes, because the
trigger's UPDATE matches no row. -/
theorem nonexistent_target_untracked (db : DB) (uid tid fresh : Nat)
    (tts vts : String)
    (htt : tts = "question" ∨ tts = "answer")
    (hvt : vts = "upvote" ∨ vts = "downvote")
    (hnodup : IdsNodup db) (huniq : UniqueTriples db.votes)
    (hfresh : ∀ w ∈ db.votes, w.id ≠ fresh)
    (hq : ∀ p ∈ db.questions, p.1 ≠ tid)
    (ha : ∀ p ∈ db.answers, p.1 ≠ tid) :
    (POST db (some uid) ⟨some tid, some tts, some vts⟩ fresh).2 = .ok true ∧
    (POST db (some uid) ⟨some tid, some tts, some vts⟩ fresh).1.questions =
      db.questions ∧
    (POST db (some uid) ⟨some tid, some tts, some vts⟩ fresh).1.answers =
      db.answers := by
  rw [POST_valid db uid tid fresh tts vts htt hvt]
  cases hf : db.votes.find? (fun w =>
      w.user_id == uid && w.target_id == tid &&
      w.target_type == parseTargetType tts) with
  | none =>
    rw [voteCore_insert hf hfresh]
    refine ⟨rfl, ?_, ?_⟩ <;> cases htk : parseTargetType tts <;>
      simp [update_vote_count, htk] <;>
      exact updateRows_eq_self _ _ _ (by assumption)
  | some e =>
    have hpred := List.find?_some hf
    simp only [Bool.and_eq_true, beq_iff_eq] at hpred
    obtain ⟨⟨hu, hti⟩, hty⟩ := hpred
    by_cases hsame : e.vote_type = parseVoteType vts
    · rw [voteCore_delete hf hsame hnodup]
      refine ⟨rfl, ?_, ?_⟩ <;> cases htk : e.target_type <;>
        simp [update_vote_count, htk, hti] <;>
        exact updateRows_eq_self _ _ _ (by assumption)
    · rw [voteCore_update hf hsame hnodup huniq]
      refine ⟨rfl, ?_, ?_⟩ <;> cases htk : e.target_type <;>
        simp [update_vote_count, htk, hti] <;>
        exact updateRows_eq_self _ _ _ (by assumption)

/-- Witness for the amended claim C4 at a concrete run against a database
whose only question has a different id. -/
theorem nonexistent_target_untracked_witness :
    (POST ⟨[(2, 5)], [], []⟩ (some 7)
        ⟨some 99, some "answer", some "downvote"⟩ 6).2 = .ok true ∧
    (POST ⟨[(2, 5)], [], []⟩ (some 7)
        ⟨some 99, some "answer", some "downvote"⟩ 6).1.questions =
      [(2, 5)] ∧
    (POST ⟨[(2, 5)], [], []⟩ (some 7)
        ⟨some 99, some "answer", some "downvote"⟩ 6).1.answers = [] :=
  nonexistent_target_untracked ⟨[(2, 5)], [], []⟩ 7 99 6 "answer" "downvote"
    (Or.inr rfl) (Or.inr rfl) (by decide) (by decide) (by decide) (by decide)
    (by decide)

/-- Claim C2: for every authenticated `POST /api/vote` call with valid
`target_type` and `vote_type` (and a well-formed database: distinct
primary keys, the UNIQUE vote constraint, and a genuinely fresh generated
id), exactly one ledger mutation is applied, chosen by the caller's
existing vote on the target: none — a new row with the requested direction
is prepended; same direction — that row is deleted; opposite direction —
that row's direction is updated to the requested value. -/
theorem vote_route_case_analysis (db : DB) (uid tid fresh : Nat)
    (tts vts : String)
    (htt : tts = "question" ∨ tts = "answer")
    (hvt : vts = "upvote" ∨ vts = "downvote")
    (hnodup : IdsNodup db) (huniq : UniqueTriples db.votes)
    (hfresh : ∀ w ∈ db.votes, w.id ≠ fresh) :
    match db.votes.find? (fun w =>
        w.user_id == uid && w.target_id == tid &&
        w.target_type == parseTargetType tts) with
    | none =>
      (POST db (some uid) ⟨some tid, some tts, some vts⟩ fresh).1.votes =
        ⟨fresh, uid, tid, parseTargetType tts, parseVoteType vts⟩ ::
          db.votes ∧
      (POST db (some uid) ⟨some tid, some tts, some vts⟩ fresh).2 = .ok true
    | some e =>
      if e.vote_type = parseVoteType vts then
        (POST db (some uid) ⟨some tid, some tts, some vts⟩ fresh).1.votes =
          db.votes.filter (fun w => w.id != e.id) ∧
        (POST db (some uid) ⟨some tid, some tts, some vts⟩ fresh).2 = .ok true
      else
        (POST db (some uid) ⟨some tid, some tts, some vts⟩ fresh).1.votes =
          db.votes.map (fun w =>
            if w.id == e.id then { e with vote_type := parseVoteType vts }
            else w) ∧
        (POST db (some uid) ⟨some tid, some tts, some vts⟩ fresh).2 =
          .ok true := by
  rw [POST_valid db uid tid fresh tts vts htt hvt]
  cases hf : db.votes.find? (fun w =>
      w.user_id == uid && w.target_id == tid &&
      w.target_type == parseTargetType tts) with
  | none =>
    simp only []
    rw [voteCore_insert hf hfresh]
    exact ⟨votes_update_vote_count _ _, rfl⟩
  | some e =>
    simp only []
    by_cases hsame : e.vote_type = parseVoteType vts
    · rw [if_pos hsame, voteCore_delete hf hsame hnodup]
      exact ⟨votes_update_vote_count _ _, rfl⟩
    · rw [if_neg hsame, voteCore_update hf hsame hnodup huniq]
      exact ⟨votes_update_vote_count _ _, rfl⟩

/-- Witness for claim C2 at a concrete insert run. -/
theorem vote_route_case_analysis_witness :
    (POST ⟨[(1, 0)], [], []⟩ (some 7)
        ⟨some 1, some "question", some "upvote"⟩ 4).1.votes =
      [⟨4, 7, 1, .question, .upvote⟩] ∧
    (POST ⟨[(1, 0)], [], []⟩ (some 7)
        ⟨some 1, some "question", some "upvote"⟩ 4).2 = .ok true := by
  have h := vote_route_case_analysis ⟨[(1, 0)], [], []⟩ 7 1 4 "question"
    "upvote" (Or.inl rfl) (Or.inl rfl) (by decide) (by decide) (by decide)
  simpa using h


theorem scoreOf_ignores_votes (db1 db2 : DB) (tid : Nat) (tk : TargetType)
    (hq : db1.questions = db2.questions) (ha : db1.answers = db2.answers) :
    scoreOf db1 tid tk = scoreOf db2 tid tk := by
  cases tk <;> simp [scoreOf, hq, ha]

/-- Claim C8: starting from a state where the voter holds no vote on an
existing target, two consecutive identical submitVote calls first insert a
vote and change the target's score by `delta` of the direction (+1 Up,
−1 Down), then delete that vote, returning both the score and the ledger
to their values before the first call. -/
theorem toggle_roundtrip (db : DB) (uid tid fresh fresh2 : Nat)
    (tts vts : String) (s : Int)
    (htt : tts = "question" ∨ tts = "answer")
    (hvt : vts = "upvote" ∨ vts = "downvote")
    (hnodup : IdsNodup db) (hfresh : ∀ w ∈ db.votes, w.id ≠ fresh)
    (hnone : db.votes.find? (fun w =>
      w.user_id == uid && w.target_id == tid &&
      w.target_type == parseTargetType tts) = none)
    (hscore : scoreOf db tid (parseTargetType tts) = some s) :
    (POST db (some uid) ⟨some tid, some tts, some vts⟩ fresh).2 = .ok true ∧
    scoreOf (POST db (some uid) ⟨some tid, some tts, some vts⟩ fresh).1 tid
      (parseTargetType tts) = some (s + delta (parseVoteType vts)) ∧
    (POST (POST db (some uid) ⟨some tid, some tts, some vts⟩ fresh).1
      (some uid) ⟨some tid, some tts, some vts⟩ fresh2).2 = .ok true ∧
    scoreOf (POST (POST db (some uid) ⟨some tid, some tts, some vts⟩
        fresh).1 (some uid) ⟨some tid, some tts, some vts⟩ fresh2).1 tid
      (parseTargetType tts) = some s ∧
    (POST (POST db (some uid) ⟨some tid, some tts, some vts⟩ fresh).1
        (some uid) ⟨some tid, some tts, some vts⟩ fresh2).1.votes =
      db.votes := by
  have hP1 : POST db (some uid) ⟨some tid, some tts, some vts⟩ fresh =
      (update_vote_count
        { db with votes :=
            ⟨fresh, uid, tid, parseTargetType tts, parseVoteType vts⟩ ::
              db.votes }
        (.ins ⟨fresh, uid, tid, parseTargetType tts, parseVoteType vts⟩),
        .ok true) := by
    rw [POST_valid db uid tid fresh tts vts htt hvt,
      voteCore_insert hnone hfresh]
  have hv1 : (POST db (some uid) ⟨some tid, some tts, some vts⟩
      fresh).1.votes =
      ⟨fresh, uid, tid, parseTargetType tts, parseVoteType vts⟩ ::
        db.votes := by
    rw [hP1]
    exact votes_update_vote_count _ _
  have hs1 : scoreOf (POST db (some uid) ⟨some tid, some tts, some vts⟩
      fresh).1 tid (parseTargetType tts) =
      some (s + delta (parseVoteType vts)) := by
    rw [hP1]
    have h := scoreOf_ins
      { db with votes :=
          ⟨fresh, uid, tid, parseTargetType tts, parseVoteType vts⟩ ::
            db.votes }
      ⟨fresh, uid, tid, parseTargetType tts, parseVoteType vts⟩
    rw [scoreOf_ignores_votes
        { db with votes :=
            ⟨fresh, uid, tid, parseTargetType tts, parseVoteType vts⟩ ::
              db.votes }
        db tid (parseTargetType tts) rfl rfl, hscore] at h
    exact h
  have hnodup1 : IdsNodup (POST db (some uid)
      ⟨some tid, some tts, some vts⟩ fresh).1 := by
    unfold IdsNodup
    rw [hv1, List.map_cons, List.nodup_cons]
    refine ⟨fun hmem => ?_, hnodup⟩
    obtain ⟨w, hw, hwid⟩ := List.mem_map.mp hmem
    exact hfresh w hw hwid
  have hf2 : (POST db (some uid) ⟨some tid, some tts, some vts⟩
      fresh).1.votes.find? (fun w =>
        w.user_id == uid && w.target_id == tid &&
        w.target_type == parseTargetType tts) =
      some ⟨fresh, uid, tid, parseTargetType tts, parseVoteType vts⟩ := by
    rw [hv1, List.find?_cons]
    simp
  have hP2 : POST (POST db (some uid) ⟨some tid, some tts, some vts⟩
      fresh).1 (some uid) ⟨some tid, some tts, some vts⟩ fresh2 =
      (update_vote_count
        { (POST db (some uid) ⟨some tid, some tts, some vts⟩ fresh).1 with
          votes := (POST db (some uid) ⟨some tid, some tts, some vts⟩
            fresh).1.votes.filter (fun w => w.id !=
              (⟨fresh, uid, tid, parseTargetType tts, parseVoteType vts⟩ :
                VoteRow).id) }
        (.del ⟨fresh, uid, tid, parseTargetType tts, parseVoteType vts⟩),
        .ok true) := by
    rw [POST_valid _ uid tid fresh2 tts vts htt hvt,
      voteCore_delete hf2 rfl hnodup1]
  have hvfilter : (POST db (some uid) ⟨some tid, some tts, some vts⟩
      fresh).1.votes.filter (fun w => w.id !=
        (⟨fresh, uid, tid, parseTargetType tts, parseVoteType vts⟩ :
          VoteRow).id) = db.votes := by
    rw [hv1, List.filter_cons]
    rw [if_neg (by simp)]
    exact filter_ne_eq_self db.votes fresh hfresh
  have hv2 : (POST (POST db (some uid) ⟨some tid, some tts, some vts⟩
      fresh).1 (some uid) ⟨some tid, some tts, some vts⟩ fresh2).1.votes =
      db.votes := by
    rw [hP2, votes_update_vote_count]
    exact hvfilter
  have hs2 : scoreOf (POST (POST db (some uid)
      ⟨some tid, some tts, some vts⟩ fresh).1 (some uid)
      ⟨some tid, some tts, some vts⟩ fresh2).1 tid (parseTargetType tts) =
      some s := by
    rw [hP2]
    have h := scoreOf_del
      { (POST db (some uid) ⟨some tid, some tts, some vts⟩ fresh).1 with
        votes := (POST db (some uid) ⟨some tid, some tts, some vts⟩
          fresh).1.votes.filter (fun w => w.id !=
            (⟨fresh, uid, tid, parseTargetType tts, parseVoteType vts⟩ :
              VoteRow).id) }
      ⟨fresh, uid, tid, parseTargetType tts, parseVoteType vts⟩
    rw [scoreOf_ignores_votes
        { (POST db (some uid) ⟨some tid, some tts, some vts⟩ fresh).1 with
          votes := (POST db (some uid) ⟨some tid, some tts, some vts⟩
            fresh).1.votes.filter (fun w => w.id !=
              (⟨fresh, uid, tid, parseTargetType tts, parseVoteType vts⟩ :
                VoteRow).id) }
        (POST db (some uid) ⟨some tid, some tts, some vts⟩ fresh).1
        tid (parseTargetType tts) rfl rfl, hs1] at h
    rw [h]
    simp
  exact ⟨by rw [hP1], hs1, by rw [hP2], hs2, hv2⟩


/-- Witness for claim C8: after voting Up twice on a fresh question, the
ledger is empty again. -/
theorem toggle_roundtrip_witness :
    (POST (POST ⟨[(1, 0)], [], []⟩ (some 7)
        ⟨some 1, some "question", some "upvote"⟩ 4).1 (some 7)
        ⟨some 1, some "question", some "upvote"⟩ 9).1.votes = [] :=
  (toggle_roundtrip ⟨[(1, 0)], [], []⟩ 7 1 4 9 "question" "upvote" 0
    (Or.inl rfl) (Or.inl rfl) (by decide) (by decide) (by decide)
    (by decide)).2.2.2.2

/-- Claim C9: a voter holding an Up vote on an existing target who submits
Down changes that target's score by exactly −2, and symmetrically a held
Down vote switched to Up changes the score by exactly +2. -/
theorem direction_switch_delta (db : DB) (uid tid fresh : Nat)
    (tts : String) (e : VoteRow) (s : Int)
    (htt : tts = "question" ∨ tts = "answer")
    (hnodup : IdsNodup db) (huniq : UniqueTriples db.votes)
    (hsome : db.votes.find? (fun w =>
      w.user_id == uid && w.target_id == tid &&
      w.target_type == parseTargetType tts) = some e)
    (hscore : scoreOf db tid (parseTargetType tts) = some s) :
    (e.vote_type = .upvote →
      scoreOf (POST db (some uid) ⟨some tid, some tts, some "downvote"⟩
        fresh).1 tid (parseTargetType tts) = some (s - 2)) ∧
    (e.vote_type = .downvote →
      scoreOf (POST db (some uid) ⟨some tid, some tts, some "upvote"⟩
        fresh).1 tid (parseTargetType tts) = some (s + 2)) := by
  have hpred := List.find?_some hsome
  simp only [Bool.and_eq_true, beq_iff_eq] at hpred
  obtain ⟨⟨hu, hti⟩, hty⟩ := hpred
  constructor
  · intro hup
    have hdiff : e.vote_type ≠ parseVoteType "downvote" := by
      rw [hup]; decide
    rw [POST_valid db uid tid fresh tts "downvote" htt (Or.inr rfl),
      voteCore_update hsome hdiff hnodup huniq]
    have hscore' : scoreOf db e.target_id e.target_type = some s := by
      rw [hti, hty]; exact hscore
    rw [← hti, ← hty,
      scoreOf_upd
        { db with votes := db.votes.map (fun w =>
            if w.id == e.id then
              { e with vote_type := parseVoteType "downvote" }
            else w) } e (parseVoteType "downvote"),
      scoreOf_ignores_votes
        { db with votes := db.votes.map (fun w =>
            if w.id == e.id then
              { e with vote_type := parseVoteType "downvote" }
            else w) } db e.target_id e.target_type rfl rfl,
      hscore', hup]
    simp [parseVoteType, delta]
    ring
  · intro hdn
    have hdiff : e.vote_type ≠ parseVoteType "upvote" := by
      rw [hdn]; decide
    rw [POST_valid db uid tid fresh tts "upvote" htt (Or.inl rfl),
      voteCore_update hsome hdiff hnodup huniq]
    have hscore' : scoreOf db e.target_id e.target_type = some s := by
      rw [hti, hty]; exact hscore
    rw [← hti, ← hty,
      scoreOf_upd
        { db with votes := db.votes.map (fun w =>
            if w.id == e.id then
              { e with vote_type := parseVoteType "upvote" }
            else w) } e (parseVoteType "upvote"),
      scoreOf_ignores_votes
        { db with votes := db.votes.map (fun w =>
            if w.id == e.id then
              { e with vote_type := parseVoteType "upvote" }
            else w) } db e.target_id e.target_type rfl rfl,
      hscore', hdn]
    simp [parseVoteType, delta]


/-- Witness for claim C9: switching a held upvote to a downvote moves the
score from 5 to 3. -/
theorem direction_switch_delta_witness :
    scoreOf (POST ⟨[(1, 5)], [], [⟨3, 7, 1, .question, .upvote⟩]⟩ (some 7)
        ⟨some 1, some "question", some "downvote"⟩ 4).1 1
      (parseTargetType "question") = some (5 - 2) :=
  (direction_switch_delta ⟨[(1, 5)], [], [⟨3, 7, 1, .question, .upvote⟩]⟩
    7 1 4 "question" ⟨3, 7, 1, .question, .upvote⟩ 5 (Or.inl rfl)
    (by decide) (by decide) (by decide) (by decide)).1 rfl

/-- Claim C10: after a successful toggle-off (the recorded `userVote` has
the same direction as the submitted vote), `handleVote` computes
`newVoteCount` equal to the previous count (delta 0) and sets `userVote`
to the submitted direction, while the server deletes the vote (effective
state NoVote) and changes the stored score by −delta; the displayed count
and vote state therefore diverge from the server's post-retraction
state. -/
theorem client_toggle_divergence (db : DB) (uid tid fresh : Nat)
    (tts vts : String) (e : VoteRow) (st : ClientState) (s : Int)
    (htt : tts = "question" ∨ tts = "answer")
    (hvt : vts = "upvote" ∨ vts = "downvote")
    (hnodup : IdsNodup db) (huniq : UniqueTriples db.votes)
    (hsome : db.votes.find? (fun w =>
      w.user_id == uid && w.target_id == tid &&
      w.target_type == parseTargetType tts) = some e)
    (hsame : e.vote_type = parseVoteType vts)
    (hclient : st.userVote = some (parseVoteType vts))
    (hcount : st.voteCount = s)
    (hscore : scoreOf db tid (parseTargetType tts) = some s) :
    (handleVote true st (parseVoteType vts) true).voteCount = s ∧
    (handleVote true st (parseVoteType vts) true).userVote =
      some (parseVoteType vts) ∧
    (POST db (some uid) ⟨some tid, some tts, some vts⟩ fresh).2 = .ok true ∧
    effectiveVote (POST db (some uid) ⟨some tid, some tts, some vts⟩
      fresh).1 uid tid (parseTargetType tts) = none ∧
    scoreOf (POST db (some uid) ⟨some tid, some tts, some vts⟩ fresh).1 tid
      (parseTargetType tts) = some (s - delta (parseVoteType vts)) ∧
    s ≠ s - delta (parseVoteType vts) := by
  have hpred := List.find?_some hsome
  simp only [Bool.and_eq_true, beq_iff_eq] at hpred
  obtain ⟨⟨hu, hti⟩, hty⟩ := hpred
  have hP : POST db (some uid) ⟨some tid, some tts, some vts⟩ fresh =
      (update_vote_count
        { db with votes := db.votes.filter (fun w => w.id != e.id) }
        (.del e), .ok true) := by
    rw [POST_valid db uid tid fresh tts vts htt hvt,
      voteCore_delete hsome hsame hnodup]
  have hnone2 : (db.votes.filter (fun w => w.id != e.id)).find? (fun w =>
      w.user_id == uid && w.target_id == tid &&
      w.target_type == parseTargetType tts) = none := by
    rw [List.find?_eq_none]
    intro w hw hcontra
    obtain ⟨hwmem, hwid⟩ := List.mem_filter.mp hw
    simp only [Bool.and_eq_true, beq_iff_eq] at hcontra
    obtain ⟨⟨hcu, hct⟩, hck⟩ := hcontra
    have hweq : w = e := uniqueTriples_eq huniq hwmem
      (List.mem_of_find?_eq_some hsome) (hcu.trans hu.symm)
      (hct.trans hti.symm) (hck.trans hty.symm)
    rw [hweq] at hwid
    simp at hwid
  refine ⟨?_, ?_, ?_, ?_, ?_, ?_⟩
  · simp [handleVote, hclient, hcount]
  · simp [handleVote]
  · rw [hP]
  · rw [hP]
    unfold effectiveVote
    rw [votes_update_vote_count]
    simp only []
    rw [hnone2]
    rfl
  · rw [hP]
    have h := scoreOf_del
      { db with votes := db.votes.filter (fun w => w.id != e.id) } e
    rw [scoreOf_ignores_votes
      { db with votes := db.votes.filter (fun w => w.id != e.id) } db
      e.target_id e.target_type rfl rfl] at h
    have hscore' : scoreOf db e.target_id e.target_type = some s := by
      rw [hti, hty]; exact hscore
    rw [← hti, ← hty, h, hscore', hsame]
    simp
  · cases hv : parseVoteType vts <;> simp [delta] <;> omega

/-- Witness for claim C10 at a concrete toggle-off of an upvote. -/
theorem client_toggle_divergence_witness :
    (handleVote true ⟨some (parseVoteType "upvote"), 5⟩
        (parseVoteType "upvote") true).voteCount = 5 ∧
    scoreOf (POST ⟨[(1, 5)], [], [⟨3, 7, 1, .question, .upvote⟩]⟩ (some 7)
        ⟨some 1, some "question", some "upvote"⟩ 9).1 1
      (parseTargetType "question") =
      some (5 - delta (parseVoteType "upvote")) :=
  ⟨(client_toggle_divergence ⟨[(1, 5)], [], [⟨3, 7, 1, .question, .upvote⟩]⟩
      7 1 9 "question" "upvote" ⟨3, 7, 1, .question, .upvote⟩
      ⟨some (parseVoteType "upvote"), 5⟩ 5 (Or.inl rfl) (Or.inl rfl)
      (by decide) (by decide) (by decide) (by decide) rfl rfl
      (by decide)).1,
   (client_toggle_divergence ⟨[(1, 5)], [], [⟨3, 7, 1, .question, .upvote⟩]⟩
      7 1 9 "question" "upvote" ⟨3, 7, 1, .question, .upvote⟩
      ⟨some (parseVoteType "upvote"), 5⟩ 5 (Or.inl rfl) (Or.inl rfl)
      (by decide) (by decide) (by decide) (by decide) rfl rfl
      (by decide)).2.2.2.2.1⟩


end Slackit
